import Mathlib

/-!
Shallow embedding of the librashader filter-chain runtime, covering:

* the gl46 runtime utilities (`calc_miplevel`, `InlineRingBuffer`);
* the D3D12 runtime framebuffer (`OwnedImage`: `new`, `scale`,
  `create_shader_resource_view`, `create_render_target_view`);
* the gl46 LUT loader (`load_luts`);
* the C API wrappers for the D3D12 filter chain (`set_param`,
  `set_active_pass_count`, `frame`'s MVP handling);
* the sampler cache contract.

Machine integers are modelled as `Nat` (none of the verified paths can
overflow `u32`/`usize` on the inputs the claims quantify over); GPU handles
are modelled as freshly allocated `Nat` identifiers; the device's
closest-format query is an abstract function parameter.  Components of the
repository that are referenced but whose sources are not part of this tree
(the shared scaling helpers, the sampler set, the parameter registry, the
default MVP) are modelled from the specification and marked as such in
their doc comments.
-/

namespace Librashader

/-- Image or viewport size in pixels (`librashader_common::Size<u32>`). -/
structure Size where
  width : Nat
  height : Nat
deriving DecidableEq, Repr

/-- Modelled from the spec: `MipmapSize::calculate_miplevels` from
`librashader-runtime/src/scaling.rs` (not part of this source tree).  The
spec states: when `mipmap=true`, mip levels = `floor(log2(max(w,h))) + 1`. -/
def Size.calculate_miplevels (s : Size) : Nat :=
  Nat.log2 (max s.width s.height) + 1

/-- Scale rule for one axis.  Modelled from the spec:
`Source(f)`: out = floor(source_axis * f); `Viewport(f)`:
out = floor(viewport_axis * f); `Absolute(v)`: out = v; clamp `max(out, 1)`.
The `f32` factor is modelled as a rational number. -/
inductive ScaleRule
  | source (f : ℚ)
  | viewport (f : ℚ)
  | absolute (v : Nat)
deriving DecidableEq

/-- Independent scale rules for the X and Y axes
(`librashader_presets::Scale2D`). -/
structure Scale2D where
  x : ScaleRule
  y : ScaleRule
deriving DecidableEq

/-- Modelled from the spec: per-axis application of a scale rule, with the
final clamp `max(out, 1)`. -/
def applyScaleRule (r : ScaleRule) (viewportAxis sourceAxis : Nat) : Nat :=
  match r with
  | .source f => max 1 (((sourceAxis : ℚ) * f).floor.toNat)
  | .viewport f => max 1 (((viewportAxis : ℚ) * f).floor.toNat)
  | .absolute v => max 1 v

/-- Modelled from the spec: `ViewportSize::scale_viewport` from
`librashader-runtime/src/scaling.rs` (not part of this source tree);
applies the scale rule per axis. -/
def Size.scale_viewport (source : Size) (scaling : Scale2D) (viewport : Size) : Size :=
  { width := applyScaleRule scaling.x viewport.width source.width
    height := applyScaleRule scaling.y viewport.height source.height }

namespace GL46

/-- Embeds `calc_miplevel` from `librashader-runtime-gl46/src/util.rs`:
`let mut size = max(w, h); let mut levels = 0;
while size != 0 { levels += 1; size >>= 1 } levels`. -/
def calcMiplevelLoop : Nat → Nat
  | 0 => 0
  | n + 1 => calcMiplevelLoop ((n + 1) / 2) + 1
decreasing_by exact Nat.div_lt_self (Nat.succ_pos n) (by omega)

/-- The `calc_miplevel` entry point (`librashader-runtime-gl46/src/util.rs`). -/
def calc_miplevel (size : Size) : Nat :=
  calcMiplevelLoop (max size.width size.height)

/-- Embeds `InlineRingBuffer<T, SIZE>` from
`librashader-runtime-gl46/src/util.rs`: a fixed array of `SIZE` items and a
cursor.  The array is modelled as a list whose length is maintained at
`SIZE`; the cursor is a plain `Nat` exactly as in the source (`usize`). -/
structure InlineRingBuffer (α : Type) (SIZE : Nat) where
  items : List α
  index : Nat
deriving DecidableEq, Repr

namespace InlineRingBuffer

/-- Embeds `InlineRingBuffer::new`: `SIZE` default items, cursor `0`. -/
def new (α : Type) [Inhabited α] (SIZE : Nat) : InlineRingBuffer α SIZE :=
  { items := List.replicate SIZE default, index := 0 }

/-- Embeds `RingBuffer::next` for `InlineRingBuffer`:
`self.index += 1; if self.index >= SIZE { self.index = 0 }`. -/
def next {α : Type} {SIZE : Nat} (b : InlineRingBuffer α SIZE) :
    InlineRingBuffer α SIZE :=
  { b with index := if b.index + 1 ≥ SIZE then 0 else b.index + 1 }

/-- Embeds `RingBuffer::current`: `&self.items[self.index]`.  Rust array
indexing panics out of bounds; the model returns `none` there. -/
def current? {α : Type} {SIZE : Nat} (b : InlineRingBuffer α SIZE) : Option α :=
  b.items.get? b.index

/-- Embeds a write through `RingBuffer::current_mut`:
`*self.current_mut() = a`, i.e. `self.items[self.index] = a`. -/
def setCurrent {α : Type} {SIZE : Nat} (b : InlineRingBuffer α SIZE) (a : α) :
    InlineRingBuffer α SIZE :=
  { b with items := b.items.set b.index a }

/-- A client-visible operation on the ring buffer: advance the cursor, or
write through `current_mut`. -/
inductive Op (α : Type)
  | next
  | write (a : α)

/-- Runs one operation. -/
def step {α : Type} {SIZE : Nat} (b : InlineRingBuffer α SIZE) :
    Op α → InlineRingBuffer α SIZE
  | .next => b.next
  | .write a => b.setCurrent a

/-- Runs a sequence of operations from a given state. -/
def run {α : Type} {SIZE : Nat} (b : InlineRingBuffer α SIZE) (ops : List (Op α)) :
    InlineRingBuffer α SIZE :=
  ops.foldl step b

end InlineRingBuffer

end GL46

/-- Texture wrap mode (`librashader_common::WrapMode`). -/
inductive WrapMode
  | clampToBorder
  | clampToEdge
  | repeatTex
  | mirroredRepeat
deriving DecidableEq, Repr, Fintype

/-- Min/mag texture filter (`librashader_common::FilterMode`). -/
inductive FilterMode
  | linear
  | nearest
deriving DecidableEq, Repr, Fintype

/-- Modelled from the spec: the mip filter component of the sampler cache
key, one of Linear, Nearest, Unspecified. -/
inductive MipFilter
  | linear
  | nearest
  | unspecified
deriving DecidableEq, Repr, Fintype

/-- Modelled from the spec: the canonical sampler cache key
`(wrap_mode, min_filter, mag_filter, mip_filter)`. -/
structure SamplerKey where
  wrap : WrapMode
  minFilter : FilterMode
  magFilter : FilterMode
  mipFilter : MipFilter
deriving DecidableEq, Repr, Fintype

/-- Association lookup in the sampler cache, first match wins. -/
def lookupSampler : List (SamplerKey × Nat) → SamplerKey → Option Nat
  | [], _ => none
  | (k', h) :: rest, k => if k = k' then some h else lookupSampler rest k

/-- Modelled from the spec: the sampler cache
(`SamplerSet` in the GL runtimes, whose source is not part of this tree).
Interned samplers keyed by the canonical key together with the next fresh
sampler handle; samplers are created on first use and never evicted. -/
structure SamplerSet where
  cache : List (SamplerKey × Nat)
  nextHandle : Nat
deriving DecidableEq, Repr

/-- The empty sampler cache at chain construction. -/
def SamplerSet.empty : SamplerSet := { cache := [], nextHandle := 0 }

/-- Modelled from the spec: `SamplerSet::get` returns the interned sampler
handle for the key, creating (and caching) a fresh sampler on first use. -/
def SamplerSet.get (s : SamplerSet) (k : SamplerKey) : Nat × SamplerSet :=
  match lookupSampler s.cache k with
  | some h => (h, s)
  | none =>
    (s.nextHandle,
      { cache := (k, s.nextHandle) :: s.cache, nextHandle := s.nextHandle + 1 })

/-- Runs a sequence of cache lookups, discarding the returned handles. -/
def SamplerSet.runGets (s : SamplerSet) (ks : List SamplerKey) : SamplerSet :=
  ks.foldl (fun s k => (s.get k).2) s

namespace D3D12

/-- Format support bits requested from the device
(`D3D12_FEATURE_DATA_FORMAT_SUPPORT.Support1`), restricted to the bits the
framebuffer code uses. -/
structure FormatSupport where
  texture2d : Bool
  shaderSample : Bool
  renderTarget : Bool
  mip : Bool
deriving DecidableEq, Repr

/-- The fields of `D3D12_RESOURCE_DESC` that the framebuffer code sets and
that the claims observe (formats are opaque numeric codes). -/
structure ResourceDesc where
  width : Nat
  height : Nat
  mipLevels : Nat
  format : Nat
  allowRenderTarget : Bool
  allowUnorderedAccess : Bool
deriving DecidableEq, Repr

/-- A committed D3D12 resource: a fresh identifier plus the descriptor it was
created with. -/
structure D3D12Resource where
  id : Nat
  desc : ResourceDesc
deriving DecidableEq, Repr

/-- Embeds `OwnedImage` from `librashader-runtime-d3d12/src/framebuffer.rs`:
`handle` (the GPU resource), the caller-requested `size`, the nominal
`format`, and `max_mipmap`.  The `device` field is modelled by passing the
device's closest-format query and the fresh resource id explicitly to the
operations that used it. -/
structure OwnedImage where
  handle : D3D12Resource
  size : Size
  format : Nat
  max_mipmap : Nat
deriving DecidableEq, Repr

/-- Embeds `OwnedImage::new`: computes the mip level count, builds the
resource descriptor with `ALLOW_RENDER_TARGET` (plus
`ALLOW_UNORDERED_ACCESS` when `mipmap`), requests
`TEXTURE2D | SHADER_SAMPLE | RENDER_TARGET` format support (plus `MIP` when
`mipmap`), resolves the descriptor format through the device's
closest-format query, creates the committed resource, and stores the
caller's `size` and nominal `format` alongside it.  `closest` stands for
`d3d12_get_closest_format` applied to the device; `nextId` is the identity
of the freshly created committed resource. -/
def OwnedImage.new (closest : Nat → FormatSupport → Nat) (nextId : Nat)
    (size : Size) (format : Nat) (mipmap : Bool) : OwnedImage :=
  let miplevels := if mipmap then size.calculate_miplevels else 1
  let support : FormatSupport :=
    { texture2d := true, shaderSample := true, renderTarget := true, mip := mipmap }
  let deviceFormat := closest format support
  { handle :=
      { id := nextId
        desc :=
          { width := size.width
            height := size.height
            mipLevels := miplevels
            format := deviceFormat
            allowRenderTarget := true
            allowUnorderedAccess := mipmap } }
    size := size
    format := format
    max_mipmap := miplevels }

/-- Embeds `InputTexture` from `librashader-runtime-d3d12/src/texture.rs` as
far as `create_shader_resource_view` populates it: the underlying resource,
the format the shader-resource-view descriptor was created with, the image
size and format, and the sampling state. -/
structure InputTexture where
  resourceId : Nat
  srvFormat : Nat
  size : Size
  format : Nat
deriving DecidableEq, Repr

/-- Embeds `OwnedImage::create_shader_resource_view`: the SRV descriptor's
`Format` is `self.format.into()` and the returned `InputTexture` carries
`self.size` and `self.format`. -/
def OwnedImage.create_shader_resource_view (img : OwnedImage) : InputTexture :=
  { resourceId := img.handle.id
    srvFormat := img.format
    size := img.size
    format := img.format }

/-- The output view returned by `create_render_target_view`: the RTV
descriptor's format and the image size. -/
structure OutputView where
  rtvFormat : Nat
  size : Size
deriving DecidableEq, Repr

/-- Embeds `OwnedImage::create_render_target_view`: the RTV descriptor's
`Format` is `self.format.into()`. -/
def OwnedImage.create_render_target_view (img : OwnedImage) : OutputView :=
  { rtvFormat := img.format, size := img.size }

/-- Embeds `OwnedImage::scale`: computes
`size = source_size.scale_viewport(scaling, viewport_size)`; if
`self.size != size || (mipmap && self.max_mipmap == 1) ||
(!mipmap && self.max_mipmap != 1) || format != self.format` then a fresh
image is created with `OwnedImage::new` and swapped into `self` (the old
image is dropped); `size` is returned either way. -/
def OwnedImage.scale (img : OwnedImage) (closest : Nat → FormatSupport → Nat)
    (nextId : Nat) (scaling : Scale2D) (format : Nat)
    (viewport_size source_size : Size) (mipmap : Bool) : OwnedImage × Size :=
  let size := source_size.scale_viewport scaling viewport_size
  if img.size ≠ size ∨ (mipmap ∧ img.max_mipmap = 1) ∨
      (¬ mipmap ∧ img.max_mipmap ≠ 1) ∨ format ≠ img.format then
    (OwnedImage.new closest nextId size format mipmap, size)
  else
    (img, size)

end D3D12

namespace GL46

/-- The GL `RGBA8` internal format code (`glow::RGBA8`). -/
def RGBA8 : Nat := 0x8058

/-- The fields of `librashader_presets::TextureConfig` that `load_luts`
reads: the image path (opaque id), the mipmap flag, and the sampling
state. -/
structure TextureConfig where
  path : Nat
  mipmap : Bool
  filter_mode : FilterMode
  wrap_mode : WrapMode
deriving DecidableEq, Repr

/-- A decoded LUT image (`librashader_runtime::image::Image`): its size and
its pixel bytes (opaque). -/
structure Image where
  size : Size
  bytes : List Nat
deriving DecidableEq, Repr

/-- A GL texture reference (`GLImage` from
`librashader-runtime-gl/src/framebuffer.rs`). -/
structure GLImage where
  handle : Option Nat
  format : Nat
  size : Size
deriving DecidableEq, Repr

/-- A bindable texture (`InputTexture` from
`librashader-runtime-gl/src/texture.rs`). -/
structure InputTexture where
  image : GLImage
  filter : FilterMode
  mip_filter : FilterMode
  wrap_mode : WrapMode
deriving DecidableEq, Repr

/-- One GL call recorded by the LUT loader, with the texture handle it
targets. -/
inductive GlOp
  | createTexture (handle : Nat)
  | textureStorage2d (handle levels width height : Nat)
  | textureSubImage2d (handle width height : Nat) (bytes : List Nat)
  | generateTextureMipmap (handle : Nat)
deriving DecidableEq, Repr

/-- The `levels` computed by the `load_luts` loop:
`if texture.mipmap { image.size.calculate_miplevels() } else { 1 }`. -/
def lutLevels (t : TextureConfig) (img : Image) : Nat :=
  if t.mipmap then img.size.calculate_miplevels else 1

/-- Embeds one iteration of the `load_luts` loop in
`librashader-runtime-gl/src/gl/gl46/lut_load.rs`: compute `levels`, create
a named texture, allocate `levels` storage levels, upload the pixel bytes
into level 0, and generate mipmaps iff `levels > 1`.  The fresh GL texture
name is modelled as the loop index. -/
def loadOneLut (index : Nat) (t : TextureConfig) (img : Image) :
    InputTexture × List GlOp :=
  let levels := lutLevels t img
  let handle := index
  let ops :=
    [GlOp.createTexture handle,
     GlOp.textureStorage2d handle levels img.size.width img.size.height,
     GlOp.textureSubImage2d handle img.size.width img.size.height img.bytes]
  let ops := if levels > 1 then ops ++ [GlOp.generateTextureMipmap handle] else ops
  ({ image := { handle := some handle, format := RGBA8, size := img.size }
     filter := t.filter_mode
     mip_filter := t.filter_mode
     wrap_mode := t.wrap_mode },
   ops)

/-- Embeds the `for (index, (texture, image)) in
textures.iter().zip(images).enumerate()` loop of `load_luts`: inserts one
map entry per index and concatenates the recorded GL calls. -/
def loadLutsLoop (index : Nat) :
    List (TextureConfig × Image) → List (Nat × InputTexture) × List GlOp
  | [] => ([], [])
  | (t, img) :: rest =>
    let one := loadOneLut index t img
    let restResult := loadLutsLoop (index + 1) rest
    ((index, one.1) :: restResult.1, one.2 ++ restResult.2)

/-- Fallible map collecting into a list, embedding the
`par_iter().map(Image::load).collect::<Result<Vec<Image>, _>>()` step: the
first failure aborts the whole call. -/
def mapExcept {α β : Type} (f : α → Except Unit β) :
    List α → Except Unit (List β)
  | [] => .ok []
  | a :: rest => do
    let b ← f a
    let bs ← mapExcept f rest
    pure (b :: bs)

/-- Embeds `Gl46LutLoad::load_luts`: decode every configured image
(`Image::load`, modelled by the `loadImage` parameter; any failure aborts
the whole call), then upload each in order.  Returns the LUT map (as an
insertion-ordered association list) and the recorded GL calls. -/
def load_luts (loadImage : Nat → Except Unit Image)
    (textures : List TextureConfig) :
    Except Unit (List (Nat × InputTexture) × List GlOp) := do
  let images ← mapExcept (fun t => loadImage t.path) textures
  pure (loadLutsLoop 0 (textures.zip images))

end GL46

namespace Capi

/-- Modelled from the spec: the error kinds of the C API surface that the
D3D12 wrappers can produce.  `InvalidParameter` covers a null required
handle and a non-UTF-8 string; `UnknownShaderParameter` is returned by
`set_param`/`get_param` for an unrecognized name. -/
inductive LibraError
  | invalidParameter
  | unknownShaderParameter
deriving DecidableEq, Repr

/-- A `*const c_char` argument as the wrapper observes it: null, non-null
but not valid UTF-8, or a decoded UTF-8 string. -/
inductive CString
  | null
  | invalidUtf8
  | valid (s : String)
deriving DecidableEq, Repr

/-- The logical state of a `FilterChainD3D12` that the parameter C API
observes: the parameter registry and the enabled pass count, plus the
preset's total pass count `P` (fixed at construction). -/
structure FilterChain where
  parameters : List (String × ℚ)
  enabledPassCount : Nat
  totalPassCount : Nat
deriving DecidableEq, Repr

/-- Updates the first binding of `name`, or returns `none` when no binding
exists. -/
def setParameterInner (ps : List (String × ℚ)) (name : String) (v : ℚ) :
    Option (List (String × ℚ)) :=
  match ps with
  | [] => none
  | (n, old) :: rest =>
    if n = name then some ((n, v) :: rest)
    else (setParameterInner rest name v).map (fun r => (n, old) :: r)

/-- First-match association lookup in the parameter registry. -/
def lookupParameter : List (String × ℚ) → String → Option ℚ
  | [], _ => none
  | (n, v) :: rest, name => if n = name then some v else lookupParameter rest name

/-- Modelled from the spec: `FilterChainParameters::set_parameter`
(`librashader-runtime/src/parameters.rs`, not part of this source tree):
`set(name, f32) → Ok | UnknownParameter`; it updates an existing parameter
and never implicitly creates one.  Returns the updated chain, or `none`
when the name is unknown. -/
def FilterChain.set_parameter (c : FilterChain) (name : String) (v : ℚ) :
    Option FilterChain :=
  (setParameterInner c.parameters name v).map
    (fun ps => { c with parameters := ps })

/-- Modelled from the spec: `set_active_pass_count(chain, u32) → ()`
silently clamps to `[0, P]`. -/
def FilterChain.set_enabled_pass_count (c : FilterChain) (count : Nat) :
    FilterChain :=
  { c with enabledPassCount := min count c.totalPassCount }

/-- Modelled from the spec: `get_active_pass_count` returns the stored
enabled pass count. -/
def FilterChain.get_enabled_pass_count (c : FilterChain) : Nat :=
  c.enabledPassCount

/-- Embeds `libra_d3d12_filter_chain_set_param` from
`librashader-capi/src/runtime/d3d12/filter_chain.rs`: `assert_some_ptr!`
on the chain, `assert_non_null!` on the name, `CStr::to_str()?` UTF-8
decoding, then `chain.set_parameter(name, value)`, exporting
`UnknownShaderParameter` when it returns `None`.  The result is the
returned error (or success) together with the chain state after the
call. -/
def libra_d3d12_filter_chain_set_param (chain : Option FilterChain)
    (param_name : CString) (value : ℚ) :
    Except LibraError Unit × Option FilterChain :=
  match chain with
  | none => (.error .invalidParameter, none)
  | some c =>
    match param_name with
    | .null => (.error .invalidParameter, some c)
    | .invalidUtf8 => (.error .invalidParameter, some c)
    | .valid name =>
      match c.set_parameter name value with
      | none => (.error .unknownShaderParameter, some c)
      | some c' => (.ok (), some c')

/-- Embeds `libra_d3d12_filter_chain_set_active_pass_count`:
`assert_some_ptr!` on the chain, then
`chain.set_enabled_pass_count(value as usize)`; it has no other failure
path. -/
def libra_d3d12_filter_chain_set_active_pass_count (chain : Option FilterChain)
    (value : Nat) : Except LibraError Unit × Option FilterChain :=
  match chain with
  | none => (.error .invalidParameter, none)
  | some c => (.ok (), some (c.set_enabled_pass_count value))

/-- Embeds `libra_d3d12_filter_chain_get_active_pass_count`:
`assert_some_ptr!` on the chain, then writes
`chain.get_enabled_pass_count() as u32` to `out`. -/
def libra_d3d12_filter_chain_get_active_pass_count
    (chain : Option FilterChain) : Except LibraError Nat :=
  match chain with
  | none => .error .invalidParameter
  | some c => .ok c.get_enabled_pass_count

/-- Modelled from the spec: the default MVP, an identity-equivalent
orthographic matrix over the unit square, used when the caller passes no
matrix.  Stored row-major as 16 scalars; `f32` entries are modelled as
rationals. -/
def DEFAULT_MVP : List ℚ :=
  [2, 0, 0, 0,
   0, 2, 0, 0,
   0, 0, 2, 0,
   -1, -1, 0, 1]

/-- Embeds the `mvp` handling of `libra_d3d12_filter_chain_frame`: a null
pointer becomes `None`; otherwise `slice::from_raw_parts(mvp, 16)` reads
exactly the 16 consecutive floats the pointer designates.  Caller memory is
modelled as a function from word offsets to values. -/
def readMvp (mvp : Option (Nat → ℚ)) : Option (List ℚ) :=
  mvp.map (fun mem => (List.range 16).map mem)

/-- Modelled from the spec: the MVP uniform the frame uses — the caller's
16 floats verbatim when provided, the default identity-equivalent
orthographic matrix otherwise. -/
def frameMvpUniform (mvp : Option (List ℚ)) : List ℚ :=
  mvp.getD DEFAULT_MVP

/-- The MVP uniform resulting from one `libra_d3d12_filter_chain_frame`
call with the given `mvp` pointer argument. -/
def libra_d3d12_filter_chain_frame_mvp (mvp : Option (Nat → ℚ)) : List ℚ :=
  frameMvpUniform (readMvp mvp)

end Capi

/-- A concrete closest-format query used by witnesses: the device supports
every requested format exactly. -/
def exClosest : Nat → D3D12.FormatSupport → Nat := fun f _ => f

/-- A concrete 4×4 single-level owned image with format code 7, used by
witnesses. -/
def exImage : D3D12.OwnedImage := ⟨⟨0, ⟨4, 4, 1, 7, true, false⟩⟩, ⟨4, 4⟩, 7, 1⟩

/-- A concrete `Source(1) × Source(1)` scale rule used by witnesses. -/
def exScale2D : Scale2D := ⟨.source 1, .source 1⟩

/-- A concrete image loader used by witnesses: every path decodes to an
empty 4×4 image. -/
def exLoadImage : Nat → Except Unit GL46.Image := fun _ => .ok ⟨⟨4, 4⟩, []⟩

/-- A concrete non-mipmapped LUT config used by witnesses. -/
def exLutConfig : GL46.TextureConfig := ⟨9, false, .linear, .clampToEdge⟩

/-- The LUT map `load_luts` produces for `exLutConfig` under
`exLoadImage`. -/
def exLuts : List (Nat × GL46.InputTexture) :=
  [(0, ⟨⟨some 0, GL46.RGBA8, ⟨4, 4⟩⟩, .linear, .linear, .clampToEdge⟩)]

/-- The GL calls `load_luts` records for `exLutConfig` under
`exLoadImage`. -/
def exLutOps : List GL46.GlOp :=
  [.createTexture 0, .textureStorage2d 0 1 4 4, .textureSubImage2d 0 4 4 []]

/-! Theorems.  Helper lemmas come first, then one theorem per claim (with a
witness instance where the claim's theorem carries hypotheses). -/

theorem calcMiplevelLoop_eq_log2 : ∀ n : Nat, 1 ≤ n →
    GL46.calcMiplevelLoop n = Nat.log2 n + 1 := by
  intro n
  induction n using Nat.strong_induction_on with
  | _ n ih =>
    intro h
    rcases n with _ | m
    · omega
    · rw [GL46.calcMiplevelLoop]
      by_cases h2 : m + 1 ≥ 2
      · rw [ih ((m + 1) / 2) (Nat.div_lt_self (by omega) (by omega)) (by omega)]
        conv_rhs => rw [Nat.log2]
        rw [if_pos h2]
      · have hm : m = 0 := by omega
        subst hm
        rw [show (0 + 1) / 2 = 0 from rfl, GL46.calcMiplevelLoop]
        rw [Nat.log2, if_neg h2]

/-- C2: for every image size with `max(width, height) ≥ 1`, the computed mip
level count when mipmapping is enabled equals
`floor(log2(max(width, height))) + 1` (`calc_miplevel`), and image creation
uses that many levels when `mipmap = true` and exactly `1` level when
`mipmap = false`. -/
theorem calc_miplevel_spec (s : Size) (h : 1 ≤ max s.width s.height) :
    GL46.calc_miplevel s = Nat.log2 (max s.width s.height) + 1 ∧
    2 ^ Nat.log2 (max s.width s.height) ≤ max s.width s.height ∧
    max s.width s.height < 2 ^ (Nat.log2 (max s.width s.height) + 1) ∧
    ∀ (closest : Nat → D3D12.FormatSupport → Nat) (nextId format : Nat),
      (D3D12.OwnedImage.new closest nextId s format true).handle.desc.mipLevels =
          Nat.log2 (max s.width s.height) + 1 ∧
      (D3D12.OwnedImage.new closest nextId s format false).handle.desc.mipLevels = 1 :=
  ⟨calcMiplevelLoop_eq_log2 _ h, Nat.log2_self_le (by omega), Nat.lt_log2_self,
    fun _ _ _ => ⟨rfl, rfl⟩⟩

/-- Witness for C2 at the concrete size 640×480. -/
theorem calc_miplevel_spec_witness :
    1 ≤ max (Size.mk 640 480).width (Size.mk 640 480).height ∧
    (GL46.calc_miplevel ⟨640, 480⟩ = Nat.log2 (max 640 480) + 1 ∧
      2 ^ Nat.log2 (max 640 480) ≤ max 640 480 ∧
      max 640 480 < 2 ^ (Nat.log2 (max 640 480) + 1) ∧
      ∀ (closest : Nat → D3D12.FormatSupport → Nat) (nextId format : Nat),
        (D3D12.OwnedImage.new closest nextId ⟨640, 480⟩ format true).handle.desc.mipLevels =
            Nat.log2 (max 640 480) + 1 ∧
        (D3D12.OwnedImage.new closest nextId ⟨640, 480⟩ format false).handle.desc.mipLevels = 1) :=
  ⟨by decide, calc_miplevel_spec ⟨640, 480⟩ (by decide)⟩

/-- C7: when an intermediate image is created, its resolved device format is
the device's closest supported format for the requested support set
texture2d + shader-sample + render-target, with mip support requested and
the unordered-access (storage) resource flag set if and only if mipmapping
is enabled. -/
theorem format_resolution_spec (closest : Nat → D3D12.FormatSupport → Nat)
    (nextId : Nat) (size : Size) (format : Nat) (mipmap : Bool) :
    (D3D12.OwnedImage.new closest nextId size format mipmap).handle.desc.format =
      closest format
        { texture2d := true, shaderSample := true, renderTarget := true, mip := mipmap } ∧
    (D3D12.OwnedImage.new closest nextId size format mipmap).handle.desc.allowRenderTarget
      = true ∧
    (D3D12.OwnedImage.new closest nextId size format mipmap).handle.desc.allowUnorderedAccess
      = mipmap :=
  ⟨rfl, rfl, rfl⟩

theorem scale_cond_iff (img : D3D12.OwnedImage) (size : Size) (format : Nat)
    (mipmap : Bool) :
    (img.size ≠ size ∨ (mipmap ∧ img.max_mipmap = 1) ∨
        (¬ mipmap ∧ img.max_mipmap ≠ 1) ∨ format ≠ img.format) ↔
      (size ≠ img.size ∨ format ≠ img.format ∨
        ¬ (mipmap = true ↔ img.max_mipmap ≠ 1)) := by
  cases mipmap <;> simp <;> constructor <;> intro h <;> rcases h with h | h | h <;> tauto

/-- C1: `OwnedImage::scale` returns the scale rule applied to the
source/viewport sizes, destroys and re-creates the owned image if and only
if the computed size, the format, or the mipmap state differs from the
current image's, and leaves the image (handle, size, format, mip levels)
unchanged when none differs. -/
theorem owned_image_scale_spec (closest : Nat → D3D12.FormatSupport → Nat)
    (nextId : Nat) (img : D3D12.OwnedImage) (scaling : Scale2D) (format : Nat)
    (viewport_size source_size : Size) (mipmap : Bool)
    (hfresh : nextId ≠ img.handle.id) :
    (img.scale closest nextId scaling format viewport_size source_size mipmap).2 =
        source_size.scale_viewport scaling viewport_size ∧
    ((img.scale closest nextId scaling format viewport_size source_size mipmap).1 ≠ img ↔
      (source_size.scale_viewport scaling viewport_size ≠ img.size ∨
        format ≠ img.format ∨ ¬ (mipmap = true ↔ img.max_mipmap ≠ 1))) ∧
    (¬ (source_size.scale_viewport scaling viewport_size ≠ img.size ∨
        format ≠ img.format ∨ ¬ (mipmap = true ↔ img.max_mipmap ≠ 1)) →
      (img.scale closest nextId scaling format viewport_size source_size mipmap).1 = img) := by
  have hiff := scale_cond_iff img (source_size.scale_viewport scaling viewport_size)
    format mipmap
  rw [D3D12.OwnedImage.scale]
  by_cases hc : img.size ≠ source_size.scale_viewport scaling viewport_size ∨
      (mipmap ∧ img.max_mipmap = 1) ∨ (¬ mipmap ∧ img.max_mipmap ≠ 1) ∨
      format ≠ img.format
  · rw [if_pos hc]
    refine ⟨rfl, ?_, ?_⟩
    · simp only [iff_true_right (hiff.mp hc)]
      intro heq
      exact hfresh (congrArg (fun i => i.handle.id) heq)
    · intro hnot
      exact absurd (hiff.mp hc) hnot
  · rw [if_neg hc]
    refine ⟨rfl, ?_, fun _ => rfl⟩
    constructor
    · intro h
      exact absurd rfl h
    · intro h
      exact absurd (hiff.mpr h) hc

/-- Witness for C1: a 4×4 single-level image scaled with `Source(1)` from a
4×4 source, no mipmaps — nothing differs, so the image is kept. -/
theorem owned_image_scale_spec_witness :
    (1 : Nat) ≠ exImage.handle.id ∧
    ((exImage.scale exClosest 1 exScale2D 7 ⟨8, 8⟩ ⟨4, 4⟩ false).2 =
        Size.scale_viewport ⟨4, 4⟩ exScale2D ⟨8, 8⟩ ∧
      ((exImage.scale exClosest 1 exScale2D 7 ⟨8, 8⟩ ⟨4, 4⟩ false).1 ≠ exImage ↔
        (Size.scale_viewport ⟨4, 4⟩ exScale2D ⟨8, 8⟩ ≠ exImage.size ∨
          (7 : Nat) ≠ exImage.format ∨ ¬ (false = true ↔ exImage.max_mipmap ≠ 1))) ∧
      (¬ (Size.scale_viewport ⟨4, 4⟩ exScale2D ⟨8, 8⟩ ≠ exImage.size ∨
          (7 : Nat) ≠ exImage.format ∨ ¬ (false = true ↔ exImage.max_mipmap ≠ 1)) →
        (exImage.scale exClosest 1 exScale2D 7 ⟨8, 8⟩ ⟨4, 4⟩ false).1 = exImage)) :=
  ⟨by decide,
    owned_image_scale_spec exClosest 1 exImage exScale2D 7 ⟨8, 8⟩ ⟨4, 4⟩ false (by decide)⟩

/-- C10: `OwnedImage::new` always stores the caller's requested size and
nominal format in the returned struct, even when the underlying GPU
resource is created with a different (closest-supported, promoted) device
format; `create_shader_resource_view`, `create_render_target_view`, and
`scale`'s re-allocation comparison all use this stored nominal format,
never the promoted one: scaling a mipmap-free image with the nominal format
and a matching size keeps it, while any format argument differing from the
nominal one re-creates it — regardless of what the promoted device format
is. -/
theorem nominal_format_spec (closest : Nat → D3D12.FormatSupport → Nat)
    (nextId : Nat) (size : Size) (format : Nat) (mipmap : Bool)
    (img : D3D12.OwnedImage)
    (himg : img = D3D12.OwnedImage.new closest nextId size format mipmap) :
    img.size = size ∧ img.format = format ∧
    img.create_shader_resource_view.srvFormat = format ∧
    img.create_shader_resource_view.format = format ∧
    img.create_render_target_view.rtvFormat = format ∧
    (∀ (scaling : Scale2D) (viewport_size source_size : Size) (nextId2 : Nat),
      source_size.scale_viewport scaling viewport_size = size → mipmap = false →
        (img.scale closest nextId2 scaling format viewport_size source_size false).1 = img) ∧
    (∀ (promoted : Nat) (scaling : Scale2D) (viewport_size source_size : Size)
        (nextId2 : Nat),
      promoted ≠ format →
      source_size.scale_viewport scaling viewport_size = size →
        (img.scale closest nextId2 scaling promoted viewport_size source_size mipmap).1.handle.id
          = nextId2) := by
  subst himg
  refine ⟨rfl, rfl, rfl, rfl, rfl, ?_, ?_⟩
  · intro scaling viewport_size source_size nextId2 hsize hmip
    subst hmip
    rw [D3D12.OwnedImage.scale, if_neg]
    simp [D3D12.OwnedImage.new, hsize]
  · intro promoted scaling viewport_size source_size nextId2 hfmt hsize
    rw [D3D12.OwnedImage.scale, if_pos]
    · rfl
    · right; right; right
      simpa [D3D12.OwnedImage.new] using hfmt

/-- Witness for C10 with a device that promotes every format by one code:
the stored format stays nominal and `scale` keys on it. -/
theorem nominal_format_spec_witness :
    (D3D12.OwnedImage.new (fun f _ => f + 1) 0 ⟨4, 4⟩ 7 false =
        D3D12.OwnedImage.new (fun f _ => f + 1) 0 ⟨4, 4⟩ 7 false) ∧
    ((D3D12.OwnedImage.new (fun f _ => f + 1) 0 ⟨4, 4⟩ 7 false).size = ⟨4, 4⟩ ∧
      (D3D12.OwnedImage.new (fun f _ => f + 1) 0 ⟨4, 4⟩ 7 false).format = 7 ∧
      (D3D12.OwnedImage.new (fun f _ => f + 1) 0 ⟨4, 4⟩ 7
            false).create_shader_resource_view.srvFormat = 7 ∧
      (D3D12.OwnedImage.new (fun f _ => f + 1) 0 ⟨4, 4⟩ 7
            false).create_shader_resource_view.format = 7 ∧
      (D3D12.OwnedImage.new (fun f _ => f + 1) 0 ⟨4, 4⟩ 7
            false).create_render_target_view.rtvFormat = 7 ∧
      (∀ (scaling : Scale2D) (viewport_size source_size : Size) (nextId2 : Nat),
        source_size.scale_viewport scaling viewport_size = ⟨4, 4⟩ → false = false →
          ((D3D12.OwnedImage.new (fun f _ => f + 1) 0 ⟨4, 4⟩ 7 false).scale
              (fun f _ => f + 1) nextId2 scaling 7 viewport_size source_size false).1 =
            D3D12.OwnedImage.new (fun f _ => f + 1) 0 ⟨4, 4⟩ 7 false) ∧
      (∀ (promoted : Nat) (scaling : Scale2D) (viewport_size source_size : Size)
          (nextId2 : Nat),
        promoted ≠ 7 →
        source_size.scale_viewport scaling viewport_size = ⟨4, 4⟩ →
          ((D3D12.OwnedImage.new (fun f _ => f + 1) 0 ⟨4, 4⟩ 7 false).scale
              (fun f _ => f + 1) nextId2 scaling promoted viewport_size
              source_size false).1.handle.id = nextId2)) :=
  ⟨rfl, nominal_format_spec (fun f _ => f + 1) 0 ⟨4, 4⟩ 7 false _ rfl⟩

theorem ring_step_preserves {α : Type} {SIZE : Nat}
    (b : GL46.InlineRingBuffer α SIZE) (op : GL46.InlineRingBuffer.Op α)
    (hS : 1 ≤ SIZE) (h : b.index < SIZE ∧ b.items.length = SIZE) :
    (b.step op).index < SIZE ∧ (b.step op).items.length = SIZE := by
  cases op with
  | next =>
    refine ⟨?_, h.2⟩
    simp only [GL46.InlineRingBuffer.step, GL46.InlineRingBuffer.next]
    split <;> omega
  | write a =>
    refine ⟨h.1, ?_⟩
    simp only [GL46.InlineRingBuffer.step, GL46.InlineRingBuffer.setCurrent,
      List.length_set]
    exact h.2

theorem ring_run_preserves {α : Type} {SIZE : Nat} (ops : List (GL46.InlineRingBuffer.Op α)) :
    ∀ b : GL46.InlineRingBuffer α SIZE, 1 ≤ SIZE →
      b.index < SIZE ∧ b.items.length = SIZE →
      (b.run ops).index < SIZE ∧ (b.run ops).items.length = SIZE := by
  induction ops with
  | nil => intro b _ h; exact h
  | cons op rest ih =>
    intro b hS h
    exact ih (b.step op) hS (ring_step_preserves b op hS h)

/-- C9: for every `SIZE ≥ 1`, `InlineRingBuffer` preserves the invariant
`index < SIZE` across every operation: `new()` starts with index `0`,
`next()` sends an in-range index to `(index + 1) mod SIZE`, and `current()`
(and `current_mut()`) always access an in-bounds element after any sequence
of operations from `new()`. -/
theorem ring_buffer_index_spec (α : Type) [Inhabited α] (SIZE : Nat)
    (hS : 1 ≤ SIZE) (ops : List (GL46.InlineRingBuffer.Op α)) :
    (GL46.InlineRingBuffer.new α SIZE).index = 0 ∧
    (∀ b : GL46.InlineRingBuffer α SIZE, b.index < SIZE →
      b.next.index = (b.index + 1) % SIZE) ∧
    ((GL46.InlineRingBuffer.new α SIZE).run ops).index < SIZE ∧
    ∃ x, ((GL46.InlineRingBuffer.new α SIZE).run ops).current? = some x := by
  have hinv := ring_run_preserves ops (GL46.InlineRingBuffer.new α SIZE) hS
    ⟨by simpa [GL46.InlineRingBuffer.new] using hS,
      by simp [GL46.InlineRingBuffer.new]⟩
  refine ⟨rfl, ?_, hinv.1, ?_⟩
  · intro b hb
    simp only [GL46.InlineRingBuffer.next]
    split
    · next hge =>
      have : b.index + 1 = SIZE := by omega
      rw [this, Nat.mod_self]
    · next hlt =>
      rw [Nat.mod_eq_of_lt (by omega)]
  · refine ⟨((GL46.InlineRingBuffer.new α SIZE).run ops).items.get
      ⟨((GL46.InlineRingBuffer.new α SIZE).run ops).index, ?_⟩, ?_⟩
    · rw [hinv.2]; exact hinv.1
    · exact List.get?_eq_get _

/-- Witness for C9: a two-slot ring over `Nat` driven through three
operations. -/
theorem ring_buffer_index_spec_witness :
    1 ≤ 2 ∧
    ((GL46.InlineRingBuffer.new Nat 2).index = 0 ∧
      (∀ b : GL46.InlineRingBuffer Nat 2, b.index < 2 →
        b.next.index = (b.index + 1) % 2) ∧
      ((GL46.InlineRingBuffer.new Nat 2).run
          [.next, .write 5, .next]).index < 2 ∧
      ∃ x, ((GL46.InlineRingBuffer.new Nat 2).run
          [.next, .write 5, .next]).current? = some x) :=
  ⟨by decide, ring_buffer_index_spec Nat 2 (by decide) [.next, .write 5, .next]⟩

theorem lookupSampler_eq_none (ps : List (SamplerKey × Nat)) (k : SamplerKey) :
    lookupSampler ps k = none ↔ k ∉ ps.map Prod.fst := by
  induction ps with
  | nil => simp [lookupSampler]
  | cons p rest ih =>
    rw [lookupSampler]
    by_cases hk : k = p.1
    · simp [hk]
    · simp only [if_neg hk, ih, List.map_cons, List.mem_cons]
      tauto

theorem lookupSampler_get_self (s : SamplerSet) (k : SamplerKey) :
    lookupSampler (s.get k).2.cache k = some (s.get k).1 := by
  rw [SamplerSet.get]
  cases h : lookupSampler s.cache k with
  | none => simp [lookupSampler]
  | some v => exact h

theorem lookupSampler_get_stable (s : SamplerSet) (k' k : SamplerKey) (h : Nat)
    (hh : lookupSampler s.cache k = some h) :
    lookupSampler (s.get k').2.cache k = some h := by
  rw [SamplerSet.get]
  cases hl : lookupSampler s.cache k' with
  | none =>
    rw [lookupSampler]
    split
    · next heq => rw [heq] at hh; rw [hh] at hl; cases hl
    · exact hh
  | some v => exact hh

theorem lookupSampler_runGets_stable (ks : List SamplerKey) :
    ∀ (s : SamplerSet) (k : SamplerKey) (h : Nat),
      lookupSampler s.cache k = some h →
      lookupSampler (s.runGets ks).cache k = some h := by
  induction ks with
  | nil => intro s k h hh; exact hh
  | cons k' rest ih =>
    intro s k h hh
    exact ih (s.get k').2 k h (lookupSampler_get_stable s k' k h hh)

theorem samplerSet_get_inv (s : SamplerSet) (k : SamplerKey)
    (h : (s.cache.map Prod.fst).Nodup ∧ s.nextHandle = s.cache.length) :
    ((s.get k).2.cache.map Prod.fst).Nodup ∧
      (s.get k).2.nextHandle = (s.get k).2.cache.length := by
  rw [SamplerSet.get]
  cases hl : lookupSampler s.cache k with
  | none =>
    refine ⟨?_, by simp [h.2]⟩
    simp only [List.map_cons, List.nodup_cons]
    exact ⟨(lookupSampler_eq_none s.cache k).mp hl, h.1⟩
  | some v => exact h

theorem samplerSet_runGets_inv (ks : List SamplerKey) :
    ∀ s : SamplerSet,
      (s.cache.map Prod.fst).Nodup ∧ s.nextHandle = s.cache.length →
      ((s.runGets ks).cache.map Prod.fst).Nodup ∧
        (s.runGets ks).nextHandle = (s.runGets ks).cache.length := by
  induction ks with
  | nil => intro s h; exact h
  | cons k rest ih => intro s h; exact ih (s.get k).2 (samplerSet_get_inv s k h)

/-- C3: the sampler cache interns samplers by the canonical key
`(wrap_mode, min_filter, mag_filter, mip_filter)`: a lookup whose key
equals a prior lookup's key returns a handle equal to the one returned
before — even after arbitrary intervening lookups, i.e. no sampler is
evicted — and at most 48 distinct samplers ever exist. -/
theorem sampler_cache_spec (ks : List SamplerKey) (k : SamplerKey)
    (ks' : List SamplerKey) :
    ((((SamplerSet.empty.runGets ks).get k).2.runGets ks').get k).1 =
        ((SamplerSet.empty.runGets ks).get k).1 ∧
    ((((SamplerSet.empty.runGets ks).get k).2.runGets ks').get k).2.nextHandle ≤ 48 := by
  have hself := lookupSampler_get_self (SamplerSet.empty.runGets ks) k
  have hstable := lookupSampler_runGets_stable ks'
    ((SamplerSet.empty.runGets ks).get k).2 k
    ((SamplerSet.empty.runGets ks).get k).1 hself
  constructor
  · rw [SamplerSet.get, hstable]
  · have hinv0 : ((SamplerSet.empty.cache.map Prod.fst).Nodup ∧
        SamplerSet.empty.nextHandle = SamplerSet.empty.cache.length) := by
      simp [SamplerSet.empty]
    have hinv1 := samplerSet_runGets_inv ks SamplerSet.empty hinv0
    have hinv2 := samplerSet_get_inv (SamplerSet.empty.runGets ks) k hinv1
    have hinv3 := samplerSet_runGets_inv ks' _ hinv2
    have hinv4 := samplerSet_get_inv _ k hinv3
    have hcard : ((((SamplerSet.empty.runGets ks).get k).2.runGets ks').get
        k).2.cache.length ≤ 48 := by
      have hnodup := hinv4.1
      have := hnodup.length_le_card
      simpa using this
    omega

theorem setParameterInner_eq_none (name : String) (v : ℚ) :
    ∀ ps : List (String × ℚ),
      Capi.setParameterInner ps name v = none ↔ name ∉ ps.map Prod.fst := by
  intro ps
  induction ps with
  | nil => simp [Capi.setParameterInner]
  | cons p rest ih =>
    rw [Capi.setParameterInner]
    by_cases hp : p.1 = name
    · simp [hp]
    · rw [if_neg hp]
      constructor
      · intro h
        cases hr : Capi.setParameterInner rest name v with
        | none =>
          have hnm := ih.mp hr
          simp only [List.map_cons, List.mem_cons]
          intro hc
          rcases hc with hc | hc
          · exact hp hc.symm
          · exact hnm hc
        | some r => rw [hr] at h; cases h
      · intro h
        have hnm : name ∉ List.map Prod.fst rest := by
          simp only [List.map_cons, List.mem_cons] at h
          tauto
        rw [ih.mpr hnm]
        rfl

theorem setParameterInner_eq_some (name : String) (v : ℚ) :
    ∀ (ps ps' : List (String × ℚ)),
      Capi.setParameterInner ps name v = some ps' →
      ps'.map Prod.fst = ps.map Prod.fst ∧
      Capi.lookupParameter ps' name = some v ∧
      ∀ n : String, n ≠ name →
        Capi.lookupParameter ps' n = Capi.lookupParameter ps n := by
  intro ps
  induction ps with
  | nil => intro ps' h; cases h
  | cons p rest ih =>
    intro ps' h
    rw [Capi.setParameterInner] at h
    by_cases hp : p.1 = name
    · rw [if_pos hp] at h
      cases h
      refine ⟨by simp, ?_, ?_⟩
      · rw [Capi.lookupParameter, if_pos hp]
      · intro n hn
        rw [Capi.lookupParameter, Capi.lookupParameter]
        by_cases hpn : p.1 = n
        · rw [hp] at hpn
          exact absurd hpn.symm hn
        · rw [if_neg hpn, if_neg hpn]
    · rw [if_neg hp] at h
      cases hr : Capi.setParameterInner rest name v with
      | none => rw [hr] at h; cases h
      | some r =>
        rw [hr] at h
        cases h
        obtain ⟨h1, h2, h3⟩ := ih r hr
        refine ⟨by simp [h1], ?_, ?_⟩
        · rw [Capi.lookupParameter, if_neg hp]
          exact h2
        · intro n hn
          rw [Capi.lookupParameter, Capi.lookupParameter]
          by_cases hpn : p.1 = n
          · rw [if_pos hpn, if_pos hpn]
          · rw [if_neg hpn, if_neg hpn]
            exact h3 n hn

/-- C4: `libra_d3d12_filter_chain_set_param` returns an
`InvalidParameter`-kind error when the chain or `param_name` is null or
`param_name` is not valid UTF-8, returns an `UnknownShaderParameter` error
when the name does not match any preset parameter (it never implicitly
creates a parameter), and succeeds otherwise; in every error case the
chain's parameter state is unchanged (so the chain remains usable). -/
theorem set_param_error_spec (c : Capi.FilterChain) (name : String) (v : ℚ) :
    (∀ p : Capi.CString,
      Capi.libra_d3d12_filter_chain_set_param none p v =
        (.error .invalidParameter, none)) ∧
    Capi.libra_d3d12_filter_chain_set_param (some c) .null v =
      (.error .invalidParameter, some c) ∧
    Capi.libra_d3d12_filter_chain_set_param (some c) .invalidUtf8 v =
      (.error .invalidParameter, some c) ∧
    (name ∉ c.parameters.map Prod.fst →
      Capi.libra_d3d12_filter_chain_set_param (some c) (.valid name) v =
        (.error .unknownShaderParameter, some c)) ∧
    (name ∈ c.parameters.map Prod.fst →
      ∃ c' : Capi.FilterChain,
        Capi.libra_d3d12_filter_chain_set_param (some c) (.valid name) v =
          (.ok (), some c') ∧
        c'.parameters.map Prod.fst = c.parameters.map Prod.fst ∧
        Capi.lookupParameter c'.parameters name = some v ∧
        (∀ n : String, n ≠ name →
          Capi.lookupParameter c'.parameters n =
            Capi.lookupParameter c.parameters n) ∧
        c'.enabledPassCount = c.enabledPassCount ∧
        c'.totalPassCount = c.totalPassCount) := by
  refine ⟨fun p => rfl, rfl, rfl, ?_, ?_⟩
  · intro hname
    have hnone : Capi.setParameterInner c.parameters name v = none :=
      (setParameterInner_eq_none name v c.parameters).mpr hname
    simp [Capi.libra_d3d12_filter_chain_set_param, Capi.FilterChain.set_parameter, hnone]
  · intro hname
    cases hsome : Capi.setParameterInner c.parameters name v with
    | none =>
      exact absurd ((setParameterInner_eq_none name v c.parameters).mp hsome) (by
        intro h; exact h hname)
    | some ps' =>
      obtain ⟨h1, h2, h3⟩ := setParameterInner_eq_some name v c.parameters ps' hsome
      refine ⟨{ c with parameters := ps' }, ?_, h1, h2, h3, rfl, rfl⟩
      simp [Capi.libra_d3d12_filter_chain_set_param, Capi.FilterChain.set_parameter, hsome]

/-- Witness for C4: setting the existing parameter `alpha` on a one-pass
chain succeeds and updates exactly that parameter. -/
theorem set_param_error_spec_witness :
    "alpha" ∈ (Capi.FilterChain.mk [("alpha", 0)] 1 1).parameters.map Prod.fst ∧
    ∃ c' : Capi.FilterChain,
      Capi.libra_d3d12_filter_chain_set_param
          (some (Capi.FilterChain.mk [("alpha", 0)] 1 1)) (.valid "alpha") 1 =
        (.ok (), some c') ∧
      c'.parameters.map Prod.fst =
        (Capi.FilterChain.mk [("alpha", 0)] 1 1).parameters.map Prod.fst ∧
      Capi.lookupParameter c'.parameters "alpha" = some 1 ∧
      (∀ n : String, n ≠ "alpha" →
        Capi.lookupParameter c'.parameters n =
          Capi.lookupParameter (Capi.FilterChain.mk [("alpha", 0)] 1 1).parameters n) ∧
      c'.enabledPassCount = (Capi.FilterChain.mk [("alpha", 0)] 1 1).enabledPassCount ∧
      c'.totalPassCount = (Capi.FilterChain.mk [("alpha", 0)] 1 1).totalPassCount :=
  ⟨by simp, (set_param_error_spec (Capi.FilterChain.mk [("alpha", 0)] 1 1)
    "alpha" 1).2.2.2.2 (by simp)⟩

/-- C6: `libra_d3d12_filter_chain_set_active_pass_count` on a valid chain
always succeeds, silently clamping the argument to `[0, P]` where `P` is
the preset's pass count, and a following `get_active_pass_count` returns
the clamped value. -/
theorem set_active_pass_count_spec (c : Capi.FilterChain) (value : Nat) :
    (Capi.libra_d3d12_filter_chain_set_active_pass_count (some c) value).1 =
      .ok () ∧
    (Capi.libra_d3d12_filter_chain_set_active_pass_count (some c) value).2 =
      some { c with enabledPassCount := min value c.totalPassCount } ∧
    min value c.totalPassCount ≤ c.totalPassCount ∧
    Capi.libra_d3d12_filter_chain_get_active_pass_count
        (Capi.libra_d3d12_filter_chain_set_active_pass_count (some c) value).2 =
      .ok (min value c.totalPassCount) :=
  ⟨rfl, rfl, Nat.min_le_right _ _, rfl⟩

/-- C8: in `libra_d3d12_filter_chain_frame`, a null `mvp` pointer makes the
frame use the default identity-equivalent orthographic matrix, and a
non-null pointer makes exactly the caller's 16 consecutive floats the MVP
uniform, verbatim. -/
theorem frame_mvp_spec :
    Capi.libra_d3d12_filter_chain_frame_mvp none = Capi.DEFAULT_MVP ∧
    ∀ mem : Nat → ℚ,
      Capi.libra_d3d12_filter_chain_frame_mvp (some mem) =
        [mem 0, mem 1, mem 2, mem 3, mem 4, mem 5, mem 6, mem 7,
         mem 8, mem 9, mem 10, mem 11, mem 12, mem 13, mem 14, mem 15] :=
  ⟨rfl, fun _ => rfl⟩

theorem mapExcept_ok {α β : Type} (f : α → Except Unit β) :
    ∀ (l : List α) (r : List β), GL46.mapExcept f l = .ok r →
      r.length = l.length ∧
      ∀ (i : Nat) (hi : i < l.length) (hr : i < r.length),
        f (l.get ⟨i, hi⟩) = .ok (r.get ⟨i, hr⟩) := by
  intro l
  induction l with
  | nil =>
    intro r h
    rw [GL46.mapExcept] at h
    cases h
    exact ⟨rfl, fun i hi => absurd hi (Nat.not_lt_zero i)⟩
  | cons a rest ih =>
    intro r h
    rw [GL46.mapExcept] at h
    cases hb : f a with
    | error e => rw [hb] at h; cases h
    | ok b =>
      rw [hb] at h
      cases hrest : GL46.mapExcept f rest with
      | error e => rw [hrest] at h; cases h
      | ok bs =>
        rw [hrest] at h
        cases h
        obtain ⟨hlen, hpoint⟩ := ih bs hrest
        refine ⟨by simp [hlen], ?_⟩
        intro i hi hr
        cases i with
        | zero => exact hb
        | succ j => exact hpoint j (by simpa using hi) (by simpa using hr)

theorem loadLutsLoop_fst_map :
    ∀ (ps : List (GL46.TextureConfig × GL46.Image)) (idx : Nat),
      (GL46.loadLutsLoop idx ps).1.map Prod.fst = List.range' idx ps.length := by
  intro ps
  induction ps with
  | nil => intro idx; rfl
  | cons p rest ih =>
    intro idx
    cases p with
    | mk t img =>
      rw [GL46.loadLutsLoop]
      simp only [List.length_cons, List.range'_succ, List.map_cons]
      rw [ih (idx + 1)]

theorem loadLutsLoop_get? :
    ∀ (ps : List (GL46.TextureConfig × GL46.Image)) (idx j : Nat)
      (hj : j < ps.length),
      (GL46.loadLutsLoop idx ps).1.get? j =
        some (idx + j,
          (GL46.loadOneLut (idx + j) (ps.get ⟨j, hj⟩).1 (ps.get ⟨j, hj⟩).2).1) := by
  intro ps
  induction ps with
  | nil => intro idx j hj; exact absurd hj (Nat.not_lt_zero j)
  | cons p rest ih =>
    intro idx j hj
    cases p with
    | mk t img =>
      rw [GL46.loadLutsLoop]
      cases j with
      | zero => rfl
      | succ k =>
        have hk : k < rest.length := by simpa using hj
        simp only [List.get?_cons_succ]
        rw [ih (idx + 1) k hk]
        have : idx + 1 + k = idx + (k + 1) := by omega
        rw [this]
        rfl

theorem loadOneLut_count_create (j : Nat) (t : GL46.TextureConfig)
    (img : GL46.Image) (h : Nat) :
    (GL46.loadOneLut j t img).2.count (GL46.GlOp.createTexture h) =
      if h = j then 1 else 0 := by
  rw [GL46.loadOneLut]
  by_cases hl : GL46.lutLevels t img > 1 <;>
    by_cases hj : h = j <;>
      simp [hl, hj, List.count_cons, List.count_append]

theorem loadLutsLoop_count_create :
    ∀ (ps : List (GL46.TextureConfig × GL46.Image)) (idx h : Nat),
      (GL46.loadLutsLoop idx ps).2.count (GL46.GlOp.createTexture h) =
        if idx ≤ h ∧ h < idx + ps.length then 1 else 0 := by
  intro ps
  induction ps with
  | nil =>
    intro idx h
    rw [GL46.loadLutsLoop]
    simp only [List.count_nil, List.length_nil]
    rw [if_neg (by omega)]
  | cons p rest ih =>
    intro idx h
    cases p with
    | mk t img =>
      rw [GL46.loadLutsLoop]
      simp only [List.count_append]
      rw [loadOneLut_count_create, ih (idx + 1) h]
      simp only [List.length_cons]
      split_ifs <;> omega

theorem loadLutsLoop_mem_ops :
    ∀ (ps : List (GL46.TextureConfig × GL46.Image)) (idx : Nat)
      (op : GL46.GlOp),
      op ∈ (GL46.loadLutsLoop idx ps).2 ↔
        ∃ j, ∃ hj : j < ps.length,
          op ∈ (GL46.loadOneLut (idx + j) (ps.get ⟨j, hj⟩).1
            (ps.get ⟨j, hj⟩).2).2 := by
  intro ps
  induction ps with
  | nil =>
    intro idx op
    simp [GL46.loadLutsLoop]
  | cons p rest ih =>
    intro idx op
    cases p with
    | mk t img =>
      rw [GL46.loadLutsLoop]
      simp only [List.mem_append]
      constructor
      · intro h
        rcases h with h | h
        · exact ⟨0, by simp, by simpa using h⟩
        · obtain ⟨j, hj, hmem⟩ := (ih (idx + 1) op).mp h
          refine ⟨j + 1, by simpa using hj, ?_⟩
          have : idx + (j + 1) = idx + 1 + j := by omega
          rw [this]
          simpa using hmem
      · intro h
        obtain ⟨j, hj, hmem⟩ := h
        cases j with
        | zero => exact Or.inl (by simpa using hmem)
        | succ k =>
          right
          refine (ih (idx + 1) op).mpr ⟨k, by simpa using hj, ?_⟩
          have : idx + 1 + k = idx + (k + 1) := by omega
          rw [this]
          simpa using hmem

theorem loadOneLut_mem_storage (j : Nat) (t : GL46.TextureConfig)
    (img : GL46.Image) :
    GL46.GlOp.textureStorage2d j (GL46.lutLevels t img) img.size.width
      img.size.height ∈ (GL46.loadOneLut j t img).2 := by
  rw [GL46.loadOneLut]
  by_cases hl : GL46.lutLevels t img > 1 <;> simp [hl]

theorem loadOneLut_mem_gen (j : Nat) (t : GL46.TextureConfig)
    (img : GL46.Image) (h : Nat) :
    (GL46.GlOp.generateTextureMipmap h ∈ (GL46.loadOneLut j t img).2 ↔
      h = j ∧ 1 < GL46.lutLevels t img) := by
  rw [GL46.loadOneLut]
  by_cases hl : GL46.lutLevels t img > 1 <;> by_cases hj : h = j <;>
    simp [hl, hj]

/-- C5: `load_luts` uploads every configured lookup texture exactly once at
initialization: for the i-th texture config it creates one texture whose
level count is the full mip chain when the config's mipmap flag is set and
`1` otherwise, generates mipmaps if and only if the level count exceeds 1,
and the returned map contains exactly one entry for every index `i`, in
order.  (Nothing in the model mutates an entry after `load_luts` returns,
matching the spec's immutable-after-init lifecycle.) -/
theorem load_luts_spec (loadImage : Nat → Except Unit GL46.Image)
    (textures : List GL46.TextureConfig)
    (luts : List (Nat × GL46.InputTexture)) (ops : List GL46.GlOp)
    (h : GL46.load_luts loadImage textures = .ok (luts, ops)) :
    luts.map Prod.fst = List.range textures.length ∧
    ∀ (i : Nat) (hi : i < textures.length),
      ∃ img : GL46.Image,
        loadImage (textures.get ⟨i, hi⟩).path = .ok img ∧
        ops.count (GL46.GlOp.createTexture i) = 1 ∧
        GL46.GlOp.textureStorage2d i
            (if (textures.get ⟨i, hi⟩).mipmap then img.size.calculate_miplevels
              else 1)
            img.size.width img.size.height ∈ ops ∧
        (GL46.GlOp.generateTextureMipmap i ∈ ops ↔
          1 < (if (textures.get ⟨i, hi⟩).mipmap then img.size.calculate_miplevels
            else 1)) ∧
        luts.get? i = some (i,
          { image := { handle := some i, format := GL46.RGBA8, size := img.size }
            filter := (textures.get ⟨i, hi⟩).filter_mode
            mip_filter := (textures.get ⟨i, hi⟩).filter_mode
            wrap_mode := (textures.get ⟨i, hi⟩).wrap_mode }) := by
  rw [GL46.load_luts] at h
  cases himg : GL46.mapExcept (fun t => loadImage t.path) textures with
  | error e => rw [himg] at h; cases h
  | ok images =>
    rw [himg] at h
    injection h with h
    obtain ⟨hlen, hpoint⟩ := mapExcept_ok (fun t => loadImage t.path) textures images himg
    have hzl : (textures.zip images).length = textures.length := by
      rw [List.length_zip, hlen, Nat.min_self]
    have hluts : luts = (GL46.loadLutsLoop 0 (textures.zip images)).1 := by rw [h]
    have hops : ops = (GL46.loadLutsLoop 0 (textures.zip images)).2 := by rw [h]
    subst hluts
    subst hops
    constructor
    · rw [loadLutsLoop_fst_map (textures.zip images) 0, hzl,
        List.range_eq_range']
    · intro i hi
      have hii : i < images.length := by omega
      have hiz : i < (textures.zip images).length := by omega
      have hzget : (textures.zip images).get ⟨i, hiz⟩ =
          (textures.get ⟨i, hi⟩, images.get ⟨i, hii⟩) := by
        simp [List.get_eq_getElem, List.getElem_zip]
      refine ⟨images.get ⟨i, hii⟩, hpoint i hi hii, ?_, ?_, ?_, ?_⟩
      · rw [loadLutsLoop_count_create (textures.zip images) 0 i,
          if_pos (by omega)]
      · refine (loadLutsLoop_mem_ops _ 0 _).mpr ⟨i, hiz, ?_⟩
        rw [hzget, Nat.zero_add]
        exact loadOneLut_mem_storage i _ _
      · constructor
        · intro hmem
          obtain ⟨j, hj, hmem⟩ := (loadLutsLoop_mem_ops _ 0 _).mp hmem
          obtain ⟨hij, hlv⟩ := (loadOneLut_mem_gen (0 + j) _ _ i).mp hmem
          have hji : j = i := by omega
          subst hji
          have heq : (textures.zip images).get ⟨j, hj⟩ =
              (textures.get ⟨j, hi⟩, images.get ⟨j, hii⟩) := hzget
          rw [heq] at hlv
          exact hlv
        · intro hlv
          refine (loadLutsLoop_mem_ops _ 0 _).mpr ⟨i, hiz, ?_⟩
          refine (loadOneLut_mem_gen (0 + i) _ _ i).mpr ⟨(Nat.zero_add i).symm, ?_⟩
          rw [hzget]
          exact hlv
      · rw [loadLutsLoop_get? (textures.zip images) 0 i hiz, hzget]
        simp [GL46.loadOneLut]

/-- Witness for C5: one non-mipmapped 4×4 LUT loads into a one-entry map
with a single texture creation and no mipmap generation. -/
theorem load_luts_spec_witness :
    GL46.load_luts exLoadImage [exLutConfig] = .ok (exLuts, exLutOps) ∧
    (exLuts.map Prod.fst = List.range [exLutConfig].length ∧
      ∀ (i : Nat) (hi : i < [exLutConfig].length),
        ∃ img : GL46.Image,
          exLoadImage ([exLutConfig].get ⟨i, hi⟩).path = .ok img ∧
          exLutOps.count (GL46.GlOp.createTexture i) = 1 ∧
          GL46.GlOp.textureStorage2d i
              (if ([exLutConfig].get ⟨i, hi⟩).mipmap then
                img.size.calculate_miplevels else 1)
              img.size.width img.size.height ∈ exLutOps ∧
          (GL46.GlOp.generateTextureMipmap i ∈ exLutOps ↔
            1 < (if ([exLutConfig].get ⟨i, hi⟩).mipmap then
              img.size.calculate_miplevels else 1)) ∧
          exLuts.get? i = some (i,
            { image := { handle := some i, format := GL46.RGBA8, size := img.size }
              filter := ([exLutConfig].get ⟨i, hi⟩).filter_mode
              mip_filter := ([exLutConfig].get ⟨i, hi⟩).filter_mode
              wrap_mode := ([exLutConfig].get ⟨i, hi⟩).wrap_mode })) :=
  ⟨rfl, load_luts_spec exLoadImage [exLutConfig] exLuts exLutOps rfl⟩

end Librashader
